import Mathlib

/-!
Shallow embedding of the `ehmi` widget library (Rust sources under
`src/components/`: `bar.rs`, `gauge.rs`, `toggle_switch.rs`, plus
`colors.rs`).

Modelling conventions:
* Rust `f32`/`f64` values are modelled as `ℚ`.  IEEE rounding is not
  modelled; every arithmetic fact proved below is exact in the rationals.
  Where the code can produce a non-finite float (division by a zero span)
  we use the finiteness-tracking type `FQ := Option ℚ`, with `none`
  standing for a non-finite value (NaN or an infinity): division by zero
  yields `none`, and `none` propagates through `-`, `*`, `/`.
* Rust `i16` values are modelled as `ℤ`; the `as i16` cast from `f64`
  (`gauge.rs` line 135) truncates toward zero, saturates at the `i16`
  bounds and sends NaN to `0`, which `toI16` / `toI16F` reproduce.
* `f32::clamp` / `f64::clamp` panic when `min > max`; the render entry
  points (`Widget::ui`) therefore return an `Option`, `none` meaning the
  render panicked.  `Ord::clamp` on `i16` in `Gauge::angle_range` is
  called with the constant bounds `-360 ≤ 360`, so it cannot panic and is
  modelled total.
* Draw calls that depend only on screen geometry (rectangles, text,
  colors at fixed positions) are not part of any claim and are not
  modelled; what is kept of a render is the clamped value actually used,
  the fill fraction / needle angle computed from it, and the number of
  tick-mark segments issued.  Arc points (`paint_arc`) are modelled by
  the angle passed to `position_from_angle`, which determines the point.
-/

/-- Finiteness-tracking model of a float: `none` is a non-finite value. -/
abbrev FQ := Option ℚ

/-- Float subtraction: non-finite operands propagate. -/
def fsub : FQ → FQ → FQ
  | some a, some b => some (a - b)
  | _, _ => none

/-- Float multiplication: non-finite operands propagate.  (The code below
never multiplies an infinity by zero to *lose* non-finiteness, so
propagating `none` is faithful on every path that occurs.) -/
def fmul : FQ → FQ → FQ
  | some a, some b => some (a * b)
  | _, _ => none

/-- Float division: division by zero is non-finite (`0/0` is NaN, `c/0`
an infinity), and non-finite operands propagate.  The embedded code only
ever divides by finite values, so the `none`-divisor case is never hit. -/
def fdiv : FQ → FQ → FQ
  | some a, some b => if b = 0 then none else some (a / b)
  | _, _ => none

/-- Rust `f32::clamp`/`f64::clamp` on finite values with `lo ≤ hi`:
`if self < min { min } else if self > max { max } else { self }`. -/
def clampQ (v lo hi : ℚ) : ℚ :=
  if v < lo then lo else if v > hi then hi else v

/-- Rust `Ord::clamp` on `i16` (used by `Gauge::angle_range` with the
constant, well-ordered bounds `-360`, `360`). -/
def intClamp (v lo hi : ℤ) : ℤ :=
  if v < lo then lo else if v > hi then hi else v

/-- Truncation toward zero, the rounding of Rust `as` casts from floats. -/
def truncQ (q : ℚ) : ℤ :=
  if 0 ≤ q then ⌊q⌋ else ⌈q⌉

/-- Rust `as i16` on a finite `f64`: truncate toward zero, saturate. -/
def toI16 (q : ℚ) : ℤ :=
  max (-32768) (min 32767 (truncQ q))

/-- Rust `as i16` on a possibly non-finite `f64`: NaN casts to `0`.
(The only non-finite value the gauge code can feed this cast is the NaN
from `0.0/0.0`, so `0` is the faithful image of `none` here.) -/
def toI16F : FQ → ℤ
  | none => 0
  | some q => toI16 q

/-- Model of `egui::Color32` (only its role as an opaque configuration
value matters to the claims). -/
structure Color32 where
  r : ℕ
  g : ℕ
  b : ℕ
  a : ℕ
  deriving DecidableEq, Repr

def Color32.from_rgb (r g b : ℕ) : Color32 := ⟨r, g, b, 255⟩

def Color32.from_gray (v : ℕ) : Color32 := ⟨v, v, v, 255⟩

def Color32.WHITE : Color32 := Color32.from_gray 255

/-- `colors.rs`: `SUCCESS = Color32::from_rgb(0, 190, 42)`. -/
def SUCCESS : Color32 := Color32.from_rgb 0 190 42

/-- `colors.rs`: `WARN = Color32::ORANGE` (`from_rgb(255, 165, 0)`). -/
def WARN : Color32 := Color32.from_rgb 255 165 0

/-- `colors.rs`: `GRAY = Color32::from_gray(169)`. -/
def GRAY : Color32 := Color32.from_gray 169

/-- `colors.rs`: `GRAY_DARK = Color32::from_gray(47)`. -/
def GRAY_DARK : Color32 := Color32.from_gray 47

/-! ## Bar (`bar.rs`) -/

/-- `bar.rs` lines 9-20: the `Bar` configuration struct.  The
`RangeInclusive<f32>` of the source is held as the two fields `min`,
`max` exactly as the struct itself stores it. -/
structure Bar where
  text : String
  value : ℚ
  font_size : ℚ
  label_size : ℚ
  bar_size : ℚ
  fg_color : Color32
  min : ℚ
  max : ℚ
  vertical : Option ℚ
  ticks : ℕ
  deriving DecidableEq, Repr

/-- `Bar::new` (`bar.rs` lines 24-40). -/
def Bar.new (value : ℚ) : Bar :=
  { text := ""
    value := value
    font_size := 16
    label_size := 10
    bar_size := 5
    fg_color := SUCCESS
    min := 0
    max := 100
    vertical := none
    ticks := 0 }

/-- `Bar::range` (`bar.rs` lines 43-47): stores both endpoints as given,
with no reordering or validation. -/
def Bar.range (b : Bar) (range : ℚ × ℚ) : Bar :=
  { b with min := range.1, max := range.2 }

/-- `Bar::vertical` (named `set_vertical` here because the Lean field
projection `Bar.vertical` already takes the source name). -/
def Bar.set_vertical (b : Bar) (max_width : ℚ) : Bar :=
  { b with vertical := some max_width }

/-- `Bar::text` (named `set_text`, see `set_vertical`). -/
def Bar.set_text (b : Bar) (text : String) : Bar :=
  { b with text := text }

/-- `Bar::font_size` (named `set_font_size`, see `set_vertical`). -/
def Bar.set_font_size (b : Bar) (font_size : ℚ) : Bar :=
  { b with font_size := font_size }

/-- `Bar::label_size` (named `set_label_size`, see `set_vertical`). -/
def Bar.set_label_size (b : Bar) (font_size : ℚ) : Bar :=
  { b with label_size := font_size }

/-- `Bar::bar_size` (named `set_bar_size`, see `set_vertical`). -/
def Bar.set_bar_size (b : Bar) (size : ℚ) : Bar :=
  { b with bar_size := size }

/-- `Bar::fg_color` (named `set_fg_color`, see `set_vertical`). -/
def Bar.set_fg_color (b : Bar) (color : Color32) : Bar :=
  { b with fg_color := color }

/-- `Bar::ticks` (named `set_ticks`, see `set_vertical`). -/
def Bar.set_ticks (b : Bar) (n : ℕ) : Bar :=
  { b with ticks := n }

/-- What a `Bar` render actually draws, as far as the claims reach. -/
structure BarRender where
  /-- The clamped value the drawing uses (`bar.rs` line 177). -/
  value : ℚ
  /-- Vertical bar: `fill_height = HEIGHT * (value - min) / (max - min)`
  (`bar.rs` line 116).  Horizontal bar: the progress fraction
  `v = (value - min) / range` (`bar.rs` lines 225-226). -/
  fill : FQ
  /-- Number of tick `line_segment` draw calls issued (`bar.rs` lines
  157-168 vertical, 251-265 horizontal: `if ticks > 0`, one segment per
  `i in 1..ticks + 1`). -/
  tick_segments : ℕ
  deriving DecidableEq, Repr

/-- `<Bar as Widget>::ui` (`bar.rs` lines 176-268), reduced to the data
the claims are about.  The first statement of the source is
`self.value.clamp(self.min, self.max)`, which panics when
`min > max`: that panic is the `none` result.  The widget is assumed
visible (`is_rect_visible`), as every claim is about what a visible
render draws. -/
def Bar.ui (b : Bar) : Option BarRender :=
  if b.min ≤ b.max then
    let value := clampQ b.value b.min b.max
    if b.vertical.isSome then
      some { value := value
             fill := fdiv (fmul (some 240) (some (value - b.min))) (some (b.max - b.min))
             tick_segments := if 0 < b.ticks then b.ticks else 0 }
    else
      some { value := value
             fill := fdiv (some (value - b.min)) (some (b.max - b.min))
             tick_segments := if 0 < b.ticks then b.ticks else 0 }
  else none

/-! ## Gauge (`gauge.rs`) -/

/-- `gauge.rs` lines 12-27: the `Gauge` configuration struct.  The two
`RangeInclusive` fields are held as pairs, exactly the endpoints the
struct stores. -/
structure Gauge where
  value : ℚ
  value_range : ℚ × ℚ
  size : ℚ
  angle_range : ℤ × ℤ
  stroke_width : ℚ
  text : Option String
  bg_color : Option Color32
  fg_color : Color32
  text_color : Option Color32
  arrow_length_factor : ℚ
  arrow_width : ℚ
  ticks : ℕ
  tick_size : ℚ
  pointer_radius : ℚ
  deriving DecidableEq, Repr

/-- `Gauge::new` (`gauge.rs` lines 31-51). -/
def Gauge.new (value : ℚ) : Gauge :=
  { value := value
    value_range := (0, 100)
    size := 200
    angle_range := (0, 180)
    stroke_width := 1.5
    text := none
    bg_color := none
    fg_color := SUCCESS
    text_color := none
    arrow_length_factor := 0.8
    arrow_width := 3
    ticks := 9
    tick_size := 3
    pointer_radius := 3 }

/-- `Gauge::range` (`gauge.rs` lines 54-57). -/
def Gauge.range (g : Gauge) (value_range : ℚ × ℚ) : Gauge :=
  { g with value_range := value_range }

/-- `Gauge::size` (named `set_size`: the field projection `Gauge.size`
takes the source name). -/
def Gauge.set_size (g : Gauge) (size : ℚ) : Gauge :=
  { g with size := size }

/-- `Gauge::angle_range` (`gauge.rs` lines 66-71, named
`set_angle_range`): each endpoint is clamped into `[-360, 360]`
independently. -/
def Gauge.set_angle_range (g : Gauge) (angle_range : ℤ × ℤ) : Gauge :=
  { g with angle_range :=
      (intClamp angle_range.1 (-360) 360, intClamp angle_range.2 (-360) 360) }

/-- `Gauge::text` (named `set_text`, see `set_size`). -/
def Gauge.set_text (g : Gauge) (text : String) : Gauge :=
  { g with text := some text }

/-- `Gauge::bg_color` (named `set_bg_color`, see `set_size`). -/
def Gauge.set_bg_color (g : Gauge) (color : Color32) : Gauge :=
  { g with bg_color := some color }

/-- `Gauge::fg_color` (named `set_fg_color`, see `set_size`). -/
def Gauge.set_fg_color (g : Gauge) (color : Color32) : Gauge :=
  { g with fg_color := color }

/-- `Gauge::text_color` (named `set_text_color`, see `set_size`). -/
def Gauge.set_text_color (g : Gauge) (color : Color32) : Gauge :=
  { g with text_color := some color }

/-- `Gauge::ticks` (named `set_ticks`, see `set_size`). -/
def Gauge.set_ticks (g : Gauge) (n : ℕ) : Gauge :=
  { g with ticks := n }

/-- `Gauge::pointer_radius` (`gauge.rs` lines 104-107, named
`set_pointer_radius`): the radius is floored at `1.0` by `size.max(1.0)`. -/
def Gauge.set_pointer_radius (g : Gauge) (size : ℚ) : Gauge :=
  { g with pointer_radius := max size 1 }

/-- `Gauge::stroke_width` (named `set_stroke_width`, see `set_size`). -/
def Gauge.set_stroke_width (g : Gauge) (stroke_width : ℚ) : Gauge :=
  { g with stroke_width := stroke_width }

/-- `Gauge::arrow_length_factor` (`gauge.rs` lines 139-142, named
`set_arrow_length_factor`): the factor is clamped into `[0.0, 1.3]`. -/
def Gauge.set_arrow_length_factor (g : Gauge) (factor : ℚ) : Gauge :=
  { g with arrow_length_factor := clampQ factor 0 1.3 }

/-- `Gauge::value_to_angle` (`gauge.rs` lines 128-136) before the final
`as i16` cast, in exact rational arithmetic:
`max_angle - ((v - min_value) / (max_value - min_value)) * (max_angle - min_angle)`. -/
def Gauge.value_to_angle_raw (g : Gauge) (v : ℚ) : ℚ :=
  let max_angle : ℤ := g.angle_range.2
  let min_angle : ℤ := g.angle_range.1
  let angle_range : ℚ := ((max_angle - min_angle : ℤ) : ℚ)
  let min_value : ℚ := g.value_range.1
  let max_value : ℚ := g.value_range.2
  let normalized : ℚ := (v - min_value) / (max_value - min_value)
  (max_angle : ℚ) - normalized * angle_range

/-- `Gauge::value_to_angle` (`gauge.rs` lines 128-136): the computed
`f64` angle cast with `as i16`. -/
def Gauge.value_to_angle (g : Gauge) (v : ℚ) : ℤ :=
  toI16 (g.value_to_angle_raw v)

/-- `Gauge::value_to_angle` in the finiteness-tracking float model: the
division by `max_value - min_value` is unguarded, so a zero-span value
range makes `normalized`, and with it the angle, non-finite. -/
def Gauge.value_to_angle_f (g : Gauge) (v : ℚ) : FQ :=
  let max_angle : ℤ := g.angle_range.2
  let min_angle : ℤ := g.angle_range.1
  let angle_range : FQ := some ((max_angle - min_angle : ℤ) : ℚ)
  let normalized : FQ := fdiv (some (v - g.value_range.1)) (some (g.value_range.2 - g.value_range.1))
  fsub (some (max_angle : ℚ)) (fmul normalized angle_range)

/-- What a `Gauge` render actually draws, as far as the claims reach. -/
structure GaugeRender where
  /-- The clamped value the drawing uses (`gauge.rs` lines 293-296). -/
  value : ℚ
  /-- The `f64` needle angle `value_to_angle` computes before its
  `as i16` cast, finiteness tracked. -/
  current_angle_raw : FQ
  /-- `current_angle` as `paint` receives it (`gauge.rs` line 150). -/
  current_angle : ℤ
  /-- Number of tick `line_segment` draw calls `paint_ticks` issues
  (`gauge.rs` lines 166-168 and 209-248: none unless `ticks >= 2`; one
  per loop index, the last index skipped when the angular span is at
  least `360`). -/
  tick_segments : ℕ
  deriving DecidableEq, Repr

/-- `<Gauge as Widget>::ui` (`gauge.rs` lines 290-307) followed by
`paint` (lines 144-177), reduced to the data the claims are about.
`self.value.clamp(start, end)` is the first computation on the value and
panics when the range is inverted: that panic is the `none` result.  The
widget is assumed visible. -/
def Gauge.ui (g : Gauge) : Option GaugeRender :=
  if g.value_range.1 ≤ g.value_range.2 then
    let value := clampQ g.value g.value_range.1 g.value_range.2
    let raw := g.value_to_angle_f value
    some { value := value
           current_angle_raw := raw
           current_angle := toI16F raw
           tick_segments :=
             if 2 ≤ g.ticks then
               if 360 ≤ g.angle_range.2 - g.angle_range.1 then g.ticks - 1 else g.ticks
             else 0 }
  else none

/-! ## `Gauge::paint_arc` (`gauge.rs` lines 179-207) -/

/-- `usize::try_from` on an `i16` value: fails (the `unwrap` panics) on
a negative input. -/
def usizeTryFrom (n : ℤ) : Option ℕ :=
  if 0 ≤ n then some n.toNat else none

/-- The loop step of `paint_arc`: `((end_angle - start_angle) / 30).max(1)`,
`i16` division truncating toward zero. -/
def arcStep (start_angle end_angle : ℤ) : ℤ :=
  max (Int.tdiv (end_angle - start_angle) 30) 1

/-- The `while angle <= end_angle` loop of `paint_arc` (`gauge.rs` lines
189-193): returns the angles pushed (each `push` is
`position_from_angle(rect, angle, radius)`) and the final value of the
loop variable. -/
def arcLoop (e step : ℤ) (hstep : 0 < step) (a : ℤ) : List ℤ × ℤ :=
  if a ≤ e then
    let r := arcLoop e step hstep (a + step)
    (a :: r.1, r.2)
  else ([], a)
termination_by (e + 1 - a).toNat
decreasing_by omega

/-- Positivity of the loop step (it is `max _ 1`), needed to run the loop. -/
def arcStep_pos (start_angle end_angle : ℤ) : 0 < arcStep start_angle end_angle :=
  lt_of_lt_of_le zero_lt_one (le_max_right _ 1)

/-- `Gauge::paint_arc` (`gauge.rs` lines 179-207), modelled by the list
of angles whose points it pushes: early return for `start >= end`, the
two `usize::try_from(..).unwrap()` calls (a failed conversion is the
`none` result), the sampling loop, and the closing
`if angle - step < end_angle { push(end_angle) }`. -/
def paint_arc_points (start_angle end_angle : ℤ) : Option (List ℤ) :=
  if end_angle ≤ start_angle then some []
  else
    match usizeTryFrom (end_angle - start_angle), usizeTryFrom (arcStep start_angle end_angle) with
    | some _, some _ =>
        let r := arcLoop end_angle (arcStep start_angle end_angle)
          (arcStep_pos start_angle end_angle) start_angle
        some (if r.2 - arcStep start_angle end_angle < end_angle
              then r.1 ++ [end_angle] else r.1)
    | _, _ => none

/-! ## ToggleSwitch (`toggle_switch.rs`) -/

/-- `toggle_switch.rs` lines 8-16: `ToggleStyle`. -/
inductive ToggleStyle where
  | Button
  | Relay
  | Valve
  deriving DecidableEq, Repr

/-- `toggle_switch.rs` lines 19-26: the `ToggleSwitch` configuration.
The `&mut bool` the widget is bound to is held as the field `on`. -/
structure ToggleSwitch where
  /-- The caller-owned `&mut bool` the switch is bound to (`on` in the
  source; `on` is a Lean keyword). -/
  is_on : Bool
  label : Option String
  color : Color32
  style : ToggleStyle
  size : Option (ℚ × ℚ)
  font_size : ℚ
  deriving DecidableEq, Repr

/-- `ToggleSwitch::new` (`toggle_switch.rs` lines 30-39). -/
def ToggleSwitch.new (b : Bool) : ToggleSwitch :=
  { is_on := b
    label := none
    color := Color32.WHITE
    style := ToggleStyle.Button
    size := none
    font_size := 14 }

/-- `ToggleSwitch::label` (named `set_label`: the field projection takes
the source name). -/
def ToggleSwitch.set_label (t : ToggleSwitch) (label : String) : ToggleSwitch :=
  { t with label := some label }

/-- `ToggleSwitch::color` (named `set_color`, see `set_label`). -/
def ToggleSwitch.set_color (t : ToggleSwitch) (color : Color32) : ToggleSwitch :=
  { t with color := color }

/-- `ToggleSwitch::style` (named `set_style`, see `set_label`). -/
def ToggleSwitch.set_style (t : ToggleSwitch) (style : ToggleStyle) : ToggleSwitch :=
  { t with style := style }

/-- `ToggleSwitch::size` (named `set_size`, see `set_label`). -/
def ToggleSwitch.set_size (t : ToggleSwitch) (size : ℚ × ℚ) : ToggleSwitch :=
  { t with size := some size }

/-- `ToggleSwitch::font_size` (named `set_font_size`, see `set_label`). -/
def ToggleSwitch.set_font_size (t : ToggleSwitch) (size : ℚ) : ToggleSwitch :=
  { t with font_size := size }

/-- `<ToggleSwitch as Widget>::ui` (`toggle_switch.rs` lines 108-113),
reduced to the state interaction: the fresh `Response` from
`allocate_exact_size` starts with `changed = false`; when it reports a
completed click (`response.clicked()`) the bound boolean is negated and
`mark_changed` is called.  Result: (value of the bound boolean after the
render, the response's `changed` flag). -/
def ToggleSwitch.ui (t : ToggleSwitch) (clicked : Bool) : Bool × Bool :=
  if clicked then (!t.is_on, true) else (t.is_on, false)

/-! ## Helper lemmas -/

/-- Rust float `clamp` with an ordered range keeps the result inside it. -/
theorem clampQ_mem (v lo hi : ℚ) (h : lo ≤ hi) :
    lo ≤ clampQ v lo hi ∧ clampQ v lo hi ≤ hi := by
  unfold clampQ
  split_ifs with h1 h2
  · exact ⟨le_refl lo, h⟩
  · exact ⟨h, le_refl hi⟩
  · exact ⟨by linarith, by linarith⟩

/-- Truncation toward zero is monotone. -/
theorem truncQ_mono {q r : ℚ} (h : q ≤ r) : truncQ q ≤ truncQ r := by
  unfold truncQ
  by_cases h1 : 0 ≤ q
  · rw [if_pos h1, if_pos (le_trans h1 h)]
    exact Int.floor_le_floor h
  · by_cases h2 : 0 ≤ r
    · rw [if_neg h1, if_pos h2]
      have hcq : ⌈q⌉ ≤ (0 : ℤ) := Int.ceil_le.mpr (by push_cast; linarith)
      have hfr : (0 : ℤ) ≤ ⌊r⌋ := Int.le_floor.mpr (by push_cast; linarith)
      omega
    · rw [if_neg h1, if_neg h2]
      exact Int.ceil_le_ceil h

/-- Truncation is the identity on integers. -/
theorem truncQ_intCast (n : ℤ) : truncQ (n : ℚ) = n := by
  unfold truncQ
  split_ifs with h
  · exact Int.floor_intCast n
  · exact Int.ceil_intCast n

/-- The saturating `as i16` cast is monotone. -/
theorem toI16_mono {q r : ℚ} (h : q ≤ r) : toI16 q ≤ toI16 r :=
  max_le_max (le_refl _) (min_le_min (le_refl _) (truncQ_mono h))

/-- The `as i16` cast is the identity on integers within the `i16` range. -/
theorem toI16_intCast (n : ℤ) (h1 : -32768 ≤ n) (h2 : n ≤ 32767) :
    toI16 (n : ℚ) = n := by
  unfold toI16
  rw [truncQ_intCast]
  omega

/-- Invariant of the `paint_arc` sampling loop: the loop variable ends
beyond `e`, and when the loop runs at least once the pushed list is
non-empty, its last element is at most `e`, and the final loop variable
is that last element plus one step. -/
theorem arcLoop_spec (e step : ℤ) (hstep : 0 < step) :
    ∀ n (a : ℤ), (e + 1 - a).toNat ≤ n →
      e < (arcLoop e step hstep a).2 ∧
      (a ≤ e → (arcLoop e step hstep a).1 ≠ [] ∧
        ∃ l, (arcLoop e step hstep a).1.getLast? = some l ∧ l ≤ e ∧
          (arcLoop e step hstep a).2 = l + step) := by
  intro n
  induction n with
  | zero =>
    intro a ha
    have hea : e < a := by omega
    rw [arcLoop, if_neg (not_le.mpr hea)]
    exact ⟨hea, fun hc => absurd hc (not_le.mpr hea)⟩
  | succ n ih =>
    intro a ha
    by_cases hae : a ≤ e
    · have key := ih (a + step) (by omega)
      rw [arcLoop, if_pos hae]
      by_cases h2 : a + step ≤ e
      · obtain ⟨hne, l, hl, hle, hfin⟩ := key.2 h2
        refine ⟨key.1, fun _ => ⟨List.cons_ne_nil _ _, l, ?_, hle, hfin⟩⟩
        obtain ⟨x, xs, hxs⟩ := List.exists_cons_of_ne_nil hne
        show (a :: (arcLoop e step hstep (a + step)).1).getLast? = some l
        rw [hxs] at hl ⊢
        rw [List.getLast?_cons_cons]
        exact hl
      · have hr : arcLoop e step hstep (a + step) = ([], a + step) := by
          rw [arcLoop, if_neg h2]
        refine ⟨?_, fun _ => ⟨List.cons_ne_nil _ _, a, ?_, hae, ?_⟩⟩
        · show e < (arcLoop e step hstep (a + step)).2
          rw [hr]
          exact not_le.mp h2
        · show (a :: (arcLoop e step hstep (a + step)).1).getLast? = some a
          rw [hr]
          simp
        · show (arcLoop e step hstep (a + step)).2 = a + step
          rw [hr]
    · rw [arcLoop, if_neg hae]
      exact ⟨not_le.mp hae, fun hc => absurd hc hae⟩

/-! ## Claim theorems -/

/-- C1 (counterexample): on the default gauge (value range `0..=100`,
angle range `0..=180`, both non-degenerate) the distinct in-range values
`0.1` and `0.2` are mapped by `Gauge::value_to_angle` to the same `i16`
angle `179`, so the value cannot be recovered from the returned angle:
the mapping the code returns is not invertible. -/
theorem value_to_angle_not_injective :
    Gauge.value_to_angle (Gauge.new 0) (1/10) = Gauge.value_to_angle (Gauge.new 0) (2/10) ∧
    (1/10 : ℚ) ≠ 2/10 ∧
    (Gauge.new 0).value_range.1 < (Gauge.new 0).value_range.2 ∧
    (Gauge.new 0).angle_range.1 < (Gauge.new 0).angle_range.2 ∧
    (Gauge.new 0).value_range.1 ≤ 1/10 ∧ (2/10 : ℚ) ≤ (Gauge.new 0).value_range.2 := by
  refine ⟨?_, by norm_num, by norm_num [Gauge.new], by norm_num [Gauge.new],
    by norm_num [Gauge.new], by norm_num [Gauge.new]⟩
  norm_num [Gauge.value_to_angle, Gauge.value_to_angle_raw, Gauge.new, toI16, truncQ]

/-- C1 (amended): for a gauge whose value range and angle range are both
increasing and non-degenerate, the value-to-angle mapping is strictly
decreasing (hence injective and invertible) as the real-valued function
`value_to_angle_raw` the code computes; the `as i16` truncation of the
returned angle preserves this monotonicity only weakly, and distinct
in-range values can collide after that cast (see the counterexample). -/
theorem value_to_angle_antitone (g : Gauge) (v1 v2 : ℚ)
    (hval : g.value_range.1 < g.value_range.2)
    (hang : g.angle_range.1 < g.angle_range.2)
    (h : v1 < v2) :
    g.value_to_angle_raw v2 < g.value_to_angle_raw v1 ∧
    g.value_to_angle v2 ≤ g.value_to_angle v1 := by
  have hspan : (0 : ℚ) < g.value_range.2 - g.value_range.1 := by linarith
  have haspan : (0 : ℚ) < ((g.angle_range.2 - g.angle_range.1 : ℤ) : ℚ) := by
    exact_mod_cast Int.sub_pos.mpr hang
  have hn : (v1 - g.value_range.1) / (g.value_range.2 - g.value_range.1)
      < (v2 - g.value_range.1) / (g.value_range.2 - g.value_range.1) :=
    (div_lt_div_iff_of_pos_right hspan).mpr (by linarith)
  have hraw : g.value_to_angle_raw v2 < g.value_to_angle_raw v1 := by
    simp only [Gauge.value_to_angle_raw]
    have := mul_lt_mul_of_pos_right hn haspan
    linarith
  exact ⟨hraw, toI16_mono (le_of_lt hraw)⟩

/-- Witness for the amended C1 theorem at the default gauge with values
`0 < 1`. -/
theorem value_to_angle_antitone_witness :
    Gauge.value_to_angle_raw (Gauge.new 0) 1 < Gauge.value_to_angle_raw (Gauge.new 0) 0 ∧
    Gauge.value_to_angle (Gauge.new 0) 1 ≤ Gauge.value_to_angle (Gauge.new 0) 0 :=
  value_to_angle_antitone (Gauge.new 0) 0 1 (by norm_num [Gauge.new])
    (by norm_num [Gauge.new]) (by norm_num)

/-- C2: on every render of a `ToggleSwitch`, the bound boolean is
negated exactly when the interaction response reports a completed click,
is unchanged otherwise, and the response's `changed` flag is set exactly
when the negation happened. -/
theorem toggle_flips_exactly_on_click (t : ToggleSwitch) (clicked : Bool) :
    (t.ui clicked).1 = (if clicked then !t.is_on else t.is_on) ∧
    (t.ui clicked).2 = clicked := by
  cases clicked <;> simp [ToggleSwitch.ui]

/-- C3: Rust `clamp` with an ordered range keeps every value within
`[min, max]`, and both render entry points use exactly the clamped
configured value for all drawing: the bar's fill and the gauge's needle
angle are computed from `clampQ value min max`, which lies in the range,
so out-of-range inputs never escape it. -/
theorem clamp_bounds_and_clamped_drawing :
    (∀ v lo hi : ℚ, lo ≤ hi → lo ≤ clampQ v lo hi ∧ clampQ v lo hi ≤ hi) ∧
    (∀ b : Bar, b.min ≤ b.max → ∃ out, b.ui = some out ∧
        out.value = clampQ b.value b.min b.max ∧
        b.min ≤ out.value ∧ out.value ≤ b.max) ∧
    (∀ g : Gauge, g.value_range.1 ≤ g.value_range.2 → ∃ out, g.ui = some out ∧
        out.value = clampQ g.value g.value_range.1 g.value_range.2 ∧
        g.value_range.1 ≤ out.value ∧ out.value ≤ g.value_range.2 ∧
        out.current_angle_raw = g.value_to_angle_f out.value ∧
        out.current_angle = toI16F (g.value_to_angle_f out.value)) := by
  refine ⟨clampQ_mem, fun b hb => ?_, fun g hg => ?_⟩
  · rw [Bar.ui, if_pos hb]
    by_cases hv : b.vertical.isSome
    · rw [if_pos hv]
      exact ⟨_, rfl, rfl, (clampQ_mem _ _ _ hb).1, (clampQ_mem _ _ _ hb).2⟩
    · rw [if_neg hv]
      exact ⟨_, rfl, rfl, (clampQ_mem _ _ _ hb).1, (clampQ_mem _ _ _ hb).2⟩
  · rw [Gauge.ui, if_pos hg]
    exact ⟨_, rfl, rfl, (clampQ_mem _ _ _ hg).1, (clampQ_mem _ _ _ hg).2, rfl, rfl⟩

/-- C4 (counterexample): a `Bar` configured with a tick count of `1`
issues one tick-mark draw call, not zero: `Bar` suppresses ticks only
for a count of `0` (`if self.ticks > 0`, one segment per index in
`1..ticks + 1`). -/
theorem bar_one_tick_draws_segment :
    (Bar.ui ((Bar.new 50).set_ticks 1)).map BarRender.tick_segments = some 1 := by
  norm_num [Bar.ui, Bar.new, Bar.set_ticks, clampQ]

/-- C4 (amended): a `Gauge` with a tick count of `0` or `1` issues no
tick-mark draw calls (`paint_ticks` runs only when `ticks >= 2`); a
`Bar` suppresses ticks only for a count of `0`, and for any count `n`
issues exactly `n` tick segments, so a bar tick count of `1` draws one
tick mark. -/
theorem tick_suppression_gauge_only :
    (∀ g : Gauge, g.ticks ≤ 1 → g.value_range.1 ≤ g.value_range.2 →
        ∃ out, g.ui = some out ∧ out.tick_segments = 0) ∧
    (∀ b : Bar, b.min ≤ b.max →
        ∃ out, b.ui = some out ∧ out.tick_segments = b.ticks) := by
  constructor
  · intro g hticks hg
    rw [Gauge.ui, if_pos hg]
    refine ⟨_, rfl, ?_⟩
    show (if 2 ≤ g.ticks then
        if 360 ≤ g.angle_range.2 - g.angle_range.1 then g.ticks - 1 else g.ticks
      else 0) = 0
    rw [if_neg (by omega)]
  · intro b hb
    rw [Bar.ui, if_pos hb]
    by_cases hv : b.vertical.isSome
    · rw [if_pos hv]
      refine ⟨_, rfl, ?_⟩
      show (if 0 < b.ticks then b.ticks else 0) = b.ticks
      split <;> omega
    · rw [if_neg hv]
      refine ⟨_, rfl, ?_⟩
      show (if 0 < b.ticks then b.ticks else 0) = b.ticks
      split <;> omega

/-- C5: for a degenerate value range of zero span (`min == max`) the
render does not panic and has no guard or error path: it divides by the
zero span `max - min` unconditionally, and the result of that division
is non-finite — the bar's fill value and the gauge's `f64` needle angle
are NaN (`none` in the finiteness-tracking model). -/
theorem zero_span_division_nonfinite :
    (∀ b : Bar, b.min = b.max → ∃ out, b.ui = some out ∧ out.fill = none) ∧
    (∀ g : Gauge, g.value_range.1 = g.value_range.2 →
        ∃ out, g.ui = some out ∧ out.current_angle_raw = none) := by
  constructor
  · intro b hb
    rw [Bar.ui, if_pos (le_of_eq hb)]
    by_cases hv : b.vertical.isSome
    · rw [if_pos hv]
      exact ⟨_, rfl, by simp [fdiv, fmul, hb]⟩
    · rw [if_neg hv]
      exact ⟨_, rfl, by simp [fdiv, hb]⟩
  · intro g hg
    rw [Gauge.ui, if_pos (le_of_eq hg)]
    exact ⟨_, rfl, by simp [Gauge.value_to_angle_f, fdiv, fmul, fsub, hg]⟩
/-- C6: numeric builder inputs are clamped at configuration time:
`Gauge::angle_range` clamps both endpoints into `[-360, 360]`,
`Gauge::arrow_length_factor` clamps the factor into `[0.0, 1.3]`, and
`Gauge::pointer_radius` floors the radius at `1.0`, for every input. -/
theorem builder_numeric_clamps :
    (∀ (g : Gauge) (r : ℤ × ℤ),
        -360 ≤ (g.set_angle_range r).angle_range.1 ∧
        (g.set_angle_range r).angle_range.1 ≤ 360 ∧
        -360 ≤ (g.set_angle_range r).angle_range.2 ∧
        (g.set_angle_range r).angle_range.2 ≤ 360) ∧
    (∀ (g : Gauge) (f : ℚ),
        0 ≤ (g.set_arrow_length_factor f).arrow_length_factor ∧
        (g.set_arrow_length_factor f).arrow_length_factor ≤ 1.3) ∧
    (∀ (g : Gauge) (s : ℚ), 1 ≤ (g.set_pointer_radius s).pointer_radius) := by
  refine ⟨fun g r => ?_, fun g f => ?_, fun g s => le_max_right s 1⟩
  · show -360 ≤ intClamp r.1 (-360) 360 ∧ intClamp r.1 (-360) 360 ≤ 360 ∧
      -360 ≤ intClamp r.2 (-360) 360 ∧ intClamp r.2 (-360) 360 ≤ 360
    unfold intClamp
    refine ⟨?_, ?_, ?_, ?_⟩ <;> split_ifs <;> omega
  · exact clampQ_mem f 0 1.3 (by norm_num)

/-- C7: every builder-style configuration method of `Bar`, `Gauge` and
`ToggleSwitch` returns the configuration with exactly the field(s) it
configures replaced and every other field unchanged (each result is the
structure-update of its receiver at those fields alone). -/
theorem builders_change_only_their_fields :
    (∀ g r, Gauge.range g r = { g with value_range := r }) ∧
    (∀ g s, Gauge.set_size g s = { g with size := s }) ∧
    (∀ g r, Gauge.set_angle_range g r = { g with angle_range :=
        (intClamp r.1 (-360) 360, intClamp r.2 (-360) 360) }) ∧
    (∀ g s, Gauge.set_text g s = { g with text := some s }) ∧
    (∀ g c, Gauge.set_bg_color g c = { g with bg_color := some c }) ∧
    (∀ g c, Gauge.set_fg_color g c = { g with fg_color := c }) ∧
    (∀ g c, Gauge.set_text_color g c = { g with text_color := some c }) ∧
    (∀ g n, Gauge.set_ticks g n = { g with ticks := n }) ∧
    (∀ g s, Gauge.set_pointer_radius g s = { g with pointer_radius := max s 1 }) ∧
    (∀ g w, Gauge.set_stroke_width g w = { g with stroke_width := w }) ∧
    (∀ g f, Gauge.set_arrow_length_factor g f =
        { g with arrow_length_factor := clampQ f 0 1.3 }) ∧
    (∀ b r, Bar.range b r = { b with min := r.1, max := r.2 }) ∧
    (∀ b w, Bar.set_vertical b w = { b with vertical := some w }) ∧
    (∀ b s, Bar.set_text b s = { b with text := s }) ∧
    (∀ b s, Bar.set_font_size b s = { b with font_size := s }) ∧
    (∀ b s, Bar.set_label_size b s = { b with label_size := s }) ∧
    (∀ b s, Bar.set_bar_size b s = { b with bar_size := s }) ∧
    (∀ b c, Bar.set_fg_color b c = { b with fg_color := c }) ∧
    (∀ b n, Bar.set_ticks b n = { b with ticks := n }) ∧
    (∀ t s, ToggleSwitch.set_label t s = { t with label := some s }) ∧
    (∀ t c, ToggleSwitch.set_color t c = { t with color := c }) ∧
    (∀ t s, ToggleSwitch.set_style t s = { t with style := s }) ∧
    (∀ t s, ToggleSwitch.set_size t s = { t with size := some s }) ∧
    (∀ t s, ToggleSwitch.set_font_size t s = { t with font_size := s }) :=
  ⟨fun _ _ => rfl, fun _ _ => rfl, fun _ _ => rfl, fun _ _ => rfl, fun _ _ => rfl,
   fun _ _ => rfl, fun _ _ => rfl, fun _ _ => rfl, fun _ _ => rfl, fun _ _ => rfl,
   fun _ _ => rfl, fun _ _ => rfl, fun _ _ => rfl, fun _ _ => rfl, fun _ _ => rfl,
   fun _ _ => rfl, fun _ _ => rfl, fun _ _ => rfl, fun _ _ => rfl, fun _ _ => rfl,
   fun _ _ => rfl, fun _ _ => rfl, fun _ _ => rfl, fun _ _ => rfl⟩

/-- C8: a `Bar` and a `Gauge` configured with an inverted range (start
`5` exceeds end `1`) panic in the `Widget::ui` entry point: the float
`clamp` of the value requires `min <= max`, and the `range` builders
store the endpoints as given with no guard or reordering. -/
theorem inverted_range_ui_panics :
    Bar.ui ((Bar.new 0).range (5, 1)) = none ∧
    Gauge.ui ((Gauge.new 0).range (5, 1)) = none := by
  constructor
  · norm_num [Bar.ui, Bar.new, Bar.range]
  · norm_num [Gauge.ui, Gauge.new, Gauge.range]

/-- C9: for every gauge with a non-degenerate value range (and `i16`
angle endpoints, which the builders guarantee), `value_to_angle` maps
the value-range minimum to the angle-range maximum and the value-range
maximum to the angle-range minimum: the mapping is reversed, the needle
angle being `max_angle - normalized * (max_angle - min_angle)`. -/
theorem value_to_angle_endpoint_reversal (g : Gauge)
    (hne : g.value_range.1 ≠ g.value_range.2)
    (h1 : -32768 ≤ g.angle_range.1) (h2 : g.angle_range.1 ≤ 32767)
    (h3 : -32768 ≤ g.angle_range.2) (h4 : g.angle_range.2 ≤ 32767) :
    g.value_to_angle g.value_range.1 = g.angle_range.2 ∧
    g.value_to_angle g.value_range.2 = g.angle_range.1 := by
  have hmin : g.value_to_angle_raw g.value_range.1 = (g.angle_range.2 : ℚ) := by
    simp [Gauge.value_to_angle_raw]
  have hmax : g.value_to_angle_raw g.value_range.2 = (g.angle_range.1 : ℚ) := by
    simp only [Gauge.value_to_angle_raw]
    rw [div_self (sub_ne_zero.mpr (Ne.symm hne))]
    push_cast
    ring
  constructor
  · rw [Gauge.value_to_angle, hmin]
    exact toI16_intCast _ h3 h4
  · rw [Gauge.value_to_angle, hmax]
    exact toI16_intCast _ h1 h2

/-- Witness for the C9 theorem at the default gauge: value `0` maps to
angle `180` and value `100` to angle `0`. -/
theorem value_to_angle_endpoint_reversal_witness :
    Gauge.value_to_angle (Gauge.new 0) (Gauge.new 0).value_range.1
      = (Gauge.new 0).angle_range.2 ∧
    Gauge.value_to_angle (Gauge.new 0) (Gauge.new 0).value_range.2
      = (Gauge.new 0).angle_range.1 :=
  value_to_angle_endpoint_reversal (Gauge.new 0) (by norm_num [Gauge.new])
    (by norm_num [Gauge.new]) (by norm_num [Gauge.new])
    (by norm_num [Gauge.new]) (by norm_num [Gauge.new])
/-- C10: `paint_arc` is total for every pair of clamped angles: when
`start_angle >= end_angle` it returns without pushing any point; when
`start_angle < end_angle` the step is at least `1`, both
`usize::try_from(..).unwrap()` calls succeed (the differences are
positive, so the result is `some` and no unwrap panics), and the pushed
point list is non-empty and ends at `end_angle`. -/
theorem paint_arc_total (s e : ℤ)
    (hs1 : -360 ≤ s) (hs2 : s ≤ 360) (he1 : -360 ≤ e) (he2 : e ≤ 360) :
    1 ≤ arcStep s e ∧
    (e ≤ s → paint_arc_points s e = some []) ∧
    (s < e → ∃ pts, paint_arc_points s e = some pts ∧ pts ≠ [] ∧
        pts.getLast? = some e) := by
  refine ⟨arcStep_pos s e, fun hle => by rw [paint_arc_points, if_pos hle], fun hlt => ?_⟩
  rw [paint_arc_points, if_neg (not_le.mpr hlt)]
  have hconv1 : usizeTryFrom (e - s) = some (e - s).toNat := by
    rw [usizeTryFrom, if_pos (by omega)]
  have hconv2 : usizeTryFrom (arcStep s e) = some (arcStep s e).toNat := by
    rw [usizeTryFrom, if_pos (le_of_lt (arcStep_pos s e))]
  rw [hconv1, hconv2]
  have spec := arcLoop_spec e (arcStep s e) (arcStep_pos s e) (e + 1 - s).toNat s (le_refl _)
  obtain ⟨hne, l, hlast, hle2, hfin⟩ := spec.2 (le_of_lt hlt)
  show ∃ pts,
      some (if (arcLoop e (arcStep s e) (arcStep_pos s e) s).2 - arcStep s e < e
            then (arcLoop e (arcStep s e) (arcStep_pos s e) s).1 ++ [e]
            else (arcLoop e (arcStep s e) (arcStep_pos s e) s).1) = some pts ∧
      pts ≠ [] ∧ pts.getLast? = some e
  by_cases hc : (arcLoop e (arcStep s e) (arcStep_pos s e) s).2 - arcStep s e < e
  · rw [if_pos hc]
    exact ⟨_, rfl, by simp, List.getLast?_concat _⟩
  · rw [if_neg hc]
    have hl : l = e := by omega
    exact ⟨_, rfl, hne, by rw [hlast, hl]⟩

/-- Witness for the C10 theorem at the clamped angle pair `0 < 180`. -/
theorem paint_arc_total_witness :
    1 ≤ arcStep 0 180 ∧
    ((180 : ℤ) ≤ 0 → paint_arc_points 0 180 = some []) ∧
    ((0 : ℤ) < 180 → ∃ pts, paint_arc_points 0 180 = some pts ∧ pts ≠ [] ∧
        pts.getLast? = some 180) :=
  paint_arc_total 0 180 (by norm_num) (by norm_num) (by norm_num) (by norm_num)
